import Mathlib

/-!
Shallow embedding of the nom complete-input parser core:
`src/error.rs` (error model, `ParseError`, `VerboseError`, `context`, `ErrorKind`)
and `src/bytes/complete.rs` (the complete-input primitive combinators),
specialised to byte-list inputs (`List Nat`).

The input-capability operations (`take_split`, `compare`, `position`,
`split_at_position_complete`, `find_substring`, `slice_index`, …) live in the
repository's `traits.rs`, which is not part of the provided sources; they are
modelled from the specification's §4.1 capability contract. Likewise `Err`,
`Needed` and `IResult` come from `internal.rs` and are modelled from §3.
Everything else is translated directly from the two source files.
-/

set_option maxHeartbeats 1000000
set_option maxRecDepth 100000

namespace Nom

/-- Translated from src/error.rs: indicates which parser returned an error
(the closed `ErrorKind` enumeration, deprecated variants included). -/
inductive ErrorKind where
  | Tag
  | MapRes
  | MapOpt
  | Alt
  | IsNot
  | IsA
  | SeparatedList
  | SeparatedNonEmptyList
  | Many0
  | Many1
  | ManyTill
  | Count
  | TakeUntilAndConsume
  | TakeUntil
  | TakeUntilEitherAndConsume
  | TakeUntilEither
  | LengthValue
  | TagClosure
  | Alpha
  | Digit
  | HexDigit
  | OctDigit
  | AlphaNumeric
  | Space
  | MultiSpace
  | LengthValueFn
  | Eof
  | ExprOpt
  | ExprRes
  | CondReduce
  | Switch
  | TagBits
  | OneOf
  | NoneOf
  | Char
  | CrLf
  | RegexpMatch
  | RegexpMatches
  | RegexpFind
  | RegexpCapture
  | RegexpCaptures
  | TakeWhile1
  | Complete
  | Fix
  | Escaped
  | EscapedTransform
  | TagStr
  | IsNotStr
  | IsAStr
  | TakeWhile1Str
  | NonEmpty
  | ManyMN
  | TakeUntilAndConsumeStr
  | TakeUntilStr
  | Not
  | Permutation
  | Verify
  | TakeTill1
  | TakeUntilAndConsume1
  | TakeWhileMN
  | ParseTo
  | TooLarge
  | Many0Count
  | Many1Count
deriving DecidableEq, Fintype, Repr

/-- Translated from src/error.rs `error_to_u32`: the stable numeric code of each
`ErrorKind` variant. -/
def error_to_u32 : ErrorKind → Nat
  | ErrorKind.Tag => 1
  | ErrorKind.MapRes => 2
  | ErrorKind.MapOpt => 3
  | ErrorKind.Alt => 4
  | ErrorKind.IsNot => 5
  | ErrorKind.IsA => 6
  | ErrorKind.SeparatedList => 7
  | ErrorKind.SeparatedNonEmptyList => 8
  | ErrorKind.Many1 => 9
  | ErrorKind.Count => 10
  | ErrorKind.TakeUntilAndConsume => 11
  | ErrorKind.TakeUntil => 12
  | ErrorKind.TakeUntilEitherAndConsume => 13
  | ErrorKind.TakeUntilEither => 14
  | ErrorKind.LengthValue => 15
  | ErrorKind.TagClosure => 16
  | ErrorKind.Alpha => 17
  | ErrorKind.Digit => 18
  | ErrorKind.AlphaNumeric => 19
  | ErrorKind.Space => 20
  | ErrorKind.MultiSpace => 21
  | ErrorKind.LengthValueFn => 22
  | ErrorKind.Eof => 23
  | ErrorKind.ExprOpt => 24
  | ErrorKind.ExprRes => 25
  | ErrorKind.CondReduce => 26
  | ErrorKind.Switch => 27
  | ErrorKind.TagBits => 28
  | ErrorKind.OneOf => 29
  | ErrorKind.NoneOf => 30
  | ErrorKind.Char => 40
  | ErrorKind.CrLf => 41
  | ErrorKind.RegexpMatch => 42
  | ErrorKind.RegexpMatches => 43
  | ErrorKind.RegexpFind => 44
  | ErrorKind.RegexpCapture => 45
  | ErrorKind.RegexpCaptures => 46
  | ErrorKind.TakeWhile1 => 47
  | ErrorKind.Complete => 48
  | ErrorKind.Fix => 49
  | ErrorKind.Escaped => 50
  | ErrorKind.EscapedTransform => 51
  | ErrorKind.TagStr => 52
  | ErrorKind.IsNotStr => 53
  | ErrorKind.IsAStr => 54
  | ErrorKind.TakeWhile1Str => 55
  | ErrorKind.NonEmpty => 56
  | ErrorKind.ManyMN => 57
  | ErrorKind.TakeUntilAndConsumeStr => 58
  | ErrorKind.HexDigit => 59
  | ErrorKind.TakeUntilStr => 60
  | ErrorKind.OctDigit => 61
  | ErrorKind.Many0 => 62
  | ErrorKind.Not => 63
  | ErrorKind.Permutation => 64
  | ErrorKind.ManyTill => 65
  | ErrorKind.Verify => 66
  | ErrorKind.TakeTill1 => 67
  | ErrorKind.TakeUntilAndConsume1 => 68
  | ErrorKind.TakeWhileMN => 69
  | ErrorKind.ParseTo => 70
  | ErrorKind.TooLarge => 71
  | ErrorKind.Many0Count => 72
  | ErrorKind.Many1Count => 73

/-- Translated from src/error.rs `ErrorKind::description`: the human description
string of each variant. -/
def ErrorKind.description : ErrorKind → String
  | ErrorKind.Tag => "Tag"
  | ErrorKind.MapRes => "Map on Result"
  | ErrorKind.MapOpt => "Map on Option"
  | ErrorKind.Alt => "Alternative"
  | ErrorKind.IsNot => "IsNot"
  | ErrorKind.IsA => "IsA"
  | ErrorKind.SeparatedList => "Separated list"
  | ErrorKind.SeparatedNonEmptyList => "Separated non empty list"
  | ErrorKind.Many0 => "Many0"
  | ErrorKind.Many1 => "Many1"
  | ErrorKind.Count => "Count"
  | ErrorKind.TakeUntilAndConsume => "Take until and consume"
  | ErrorKind.TakeUntil => "Take until"
  | ErrorKind.TakeUntilEitherAndConsume => "Take until either and consume"
  | ErrorKind.TakeUntilEither => "Take until either"
  | ErrorKind.LengthValue => "Length followed by value"
  | ErrorKind.TagClosure => "Tag closure"
  | ErrorKind.Alpha => "Alphabetic"
  | ErrorKind.Digit => "Digit"
  | ErrorKind.AlphaNumeric => "AlphaNumeric"
  | ErrorKind.Space => "Space"
  | ErrorKind.MultiSpace => "Multiple spaces"
  | ErrorKind.LengthValueFn => "LengthValueFn"
  | ErrorKind.Eof => "End of file"
  | ErrorKind.ExprOpt => "Evaluate Option"
  | ErrorKind.ExprRes => "Evaluate Result"
  | ErrorKind.CondReduce => "Condition reduce"
  | ErrorKind.Switch => "Switch"
  | ErrorKind.TagBits => "Tag on bitstream"
  | ErrorKind.OneOf => "OneOf"
  | ErrorKind.NoneOf => "NoneOf"
  | ErrorKind.Char => "Char"
  | ErrorKind.CrLf => "CrLf"
  | ErrorKind.RegexpMatch => "RegexpMatch"
  | ErrorKind.RegexpMatches => "RegexpMatches"
  | ErrorKind.RegexpFind => "RegexpFind"
  | ErrorKind.RegexpCapture => "RegexpCapture"
  | ErrorKind.RegexpCaptures => "RegexpCaptures"
  | ErrorKind.TakeWhile1 => "TakeWhile1"
  | ErrorKind.Complete => "Complete"
  | ErrorKind.Fix => "Fix"
  | ErrorKind.Escaped => "Escaped"
  | ErrorKind.EscapedTransform => "EscapedTransform"
  | ErrorKind.TagStr => "Tag on strings"
  | ErrorKind.IsNotStr => "IsNot on strings"
  | ErrorKind.IsAStr => "IsA on strings"
  | ErrorKind.TakeWhile1Str => "TakeWhile1 on strings"
  | ErrorKind.NonEmpty => "NonEmpty"
  | ErrorKind.ManyMN => "Many(m, n)"
  | ErrorKind.TakeUntilAndConsumeStr => "Take until and consume on strings"
  | ErrorKind.HexDigit => "Hexadecimal Digit"
  | ErrorKind.TakeUntilStr => "Take until on strings"
  | ErrorKind.OctDigit => "Octal digit"
  | ErrorKind.Not => "Negation"
  | ErrorKind.Permutation => "Permutation"
  | ErrorKind.ManyTill => "ManyTill"
  | ErrorKind.Verify => "predicate verification"
  | ErrorKind.TakeTill1 => "TakeTill1"
  | ErrorKind.TakeUntilAndConsume1 => "Take at least 1 until and consume"
  | ErrorKind.TakeWhileMN => "TakeWhileMN"
  | ErrorKind.ParseTo => "Parse string to the specified type"
  | ErrorKind.TooLarge => "Needed data size is too large"
  | ErrorKind.Many0Count => "Count occurrence of >=0 patterns"
  | ErrorKind.Many1Count => "Count occurrence of >=1 patterns"

/-- Modelled from the spec: `Needed` is `Unknown` or `Size(n)`, the
additional-element-count requirement carried by `Incomplete`
(declared in the repository's `internal.rs`, which is not under src/). -/
inductive Needed where
  | Unknown
  | Size (n : Nat)
deriving DecidableEq, Repr

/-- Modelled from the spec: the three-way failure variant `Err<E>` — tagged union
of `Incomplete(Needed)`, recoverable `Error(E)` and unrecoverable `Failure(E)`
(declared in the repository's `internal.rs`, which is not under src/). -/
inductive Err (E : Type) where
  | Incomplete (n : Needed)
  | Error (e : E)
  | Failure (e : E)
deriving DecidableEq, Repr

/-- Modelled from the spec: the outcome type
`IResult<I, O, E> = Result<(I, O), Err<E>>` — success carries
`(remaining_input, matched_output)` (declared in `internal.rs`). -/
abbrev IResult (I O E : Type) := Except (Err E) (I × O)

/-- Translated from src/error.rs: the `ParseError` trait, with the source's
default bodies for `from_char`, `or` and `add_context`. -/
class ParseError (I : Type) (E : Type) where
  from_error_kind : I → ErrorKind → E
  append : I → ErrorKind → E → E
  from_char : I → Char → E := fun input _ => from_error_kind input ErrorKind.Char
  or : E → E → E := fun _ other => other
  add_context : I → String → E → E := fun _ _ other => other

/-- Translated from src/error.rs: `impl<I> ParseError<I> for (I, ErrorKind)` —
the minimal representation; `append` returns the inner error unchanged. -/
instance instParseErrorPair {I : Type} : ParseError I (I × ErrorKind) where
  from_error_kind input kind := (input, kind)
  append _ _ other := other

/-- Translated from src/error.rs: `impl<I> ParseError<I> for ()`. -/
instance instParseErrorUnit {I : Type} : ParseError I Unit where
  from_error_kind _ _ := ()
  append _ _ _ := ()

/-- Translated from src/error.rs: `make_error` wraps `ParseError::from_error_kind`. -/
def make_error {I E : Type} [ParseError I E] (input : I) (kind : ErrorKind) : E :=
  ParseError.from_error_kind input kind

/-- Translated from src/error.rs: `append_error` wraps `ParseError::append`. -/
def append_error {I E : Type} [ParseError I E] (input : I) (kind : ErrorKind) (other : E) : E :=
  ParseError.append input kind other

/-- Translated from src/error.rs: `VerboseErrorKind` — a static context label, a
character, or an `ErrorKind`. -/
inductive VerboseErrorKind where
  | Context (s : String)
  | Chr (c : Char)
  | Nom (k : ErrorKind)
deriving DecidableEq, Repr

/-- Translated from src/error.rs: `VerboseError` — the accumulating
representation, an ordered list of `(input, VerboseErrorKind)` entries. -/
structure VerboseError (I : Type) where
  errors : List (I × VerboseErrorKind)
deriving DecidableEq, Repr

/-- Translated from src/error.rs: `impl<I> ParseError<I> for VerboseError<I>` —
`append` and `add_context` push a new entry at the back of the list. -/
instance instParseErrorVerbose {I : Type} : ParseError I (VerboseError I) where
  from_error_kind input kind := ⟨[(input, VerboseErrorKind.Nom kind)]⟩
  append input kind other := ⟨other.errors ++ [(input, VerboseErrorKind.Nom kind)]⟩
  from_char input c := ⟨[(input, VerboseErrorKind.Chr c)]⟩
  add_context input ctx other := ⟨other.errors ++ [(input, VerboseErrorKind.Context ctx)]⟩

/-- Translated from src/error.rs: the `context` wrapper — passes success and
`Incomplete` through, and converts `Error`/`Failure` into
`Failure(E::add_context(i, context, e))` with `i` the input at call time. -/
def context {I O E : Type} [ParseError I E] (ctx : String) (f : I → IResult I O E) :
    I → IResult I O E :=
  fun i =>
    match f i with
    | Except.ok o => Except.ok o
    | Except.error (Err.Incomplete n) => Except.error (Err.Incomplete n)
    | Except.error (Err.Error e) => Except.error (Err.Failure (ParseError.add_context i ctx e))
    | Except.error (Err.Failure e) => Except.error (Err.Failure (ParseError.add_context i ctx e))

/-! ### Input capability model, specialised to byte lists.

The repository implements these in `traits.rs`, which is not among the provided
sources; each operation below is modelled from the specification's §4.1. -/

/-- Modelled from the spec: `length()` — number of elements in the input. -/
def input_len (i : List Nat) : Nat := i.length

/-- Modelled from the spec: `take_split(offset)` splits the input at `offset`,
`consumed` being the prefix `[0, offset)` and `remaining` the suffix; returned
as `(remaining, consumed)`. -/
def take_split (i : List Nat) (offset : Nat) : List Nat × List Nat :=
  (i.drop offset, i.take offset)

/-- Modelled from the spec: the tri-state comparison outcome distinguishing a
confirmed match, a continuation-needed state, and a confirmed non-match. -/
inductive CompareResult where
  | Ok
  | Incomplete
  | Error
deriving DecidableEq, Repr

/-- Modelled from the spec: `compare(literal)` tests whether the input begins
with `literal`; `Incomplete` when the input is exhausted while still agreeing
with the literal, `Error` on a confirmed mismatch. -/
def compare (i t : List Nat) : CompareResult :=
  if t.isPrefixOf i then CompareResult.Ok
  else if i.isPrefixOf t then CompareResult.Incomplete
  else CompareResult.Error

/-- ASCII lowercasing of a byte, used by the case-insensitive comparison. -/
def lowercase_byte (c : Nat) : Nat :=
  if 65 ≤ c ∧ c ≤ 90 then c + 32 else c

/-- Modelled from the spec: `compare_no_case(literal)` tests whether the input
begins with `literal` under ASCII case-folding. -/
def compare_no_case (i t : List Nat) : CompareResult :=
  compare (i.map lowercase_byte) (t.map lowercase_byte)

/-- Modelled from the spec: `find_substring(needle)` — offset of the first
occurrence of `needle` in the input, or none. -/
def find_substring : List Nat → List Nat → Option Nat
  | [], needle => if needle.isPrefixOf ([] : List Nat) then some 0 else none
  | c :: rest, needle =>
    if needle.isPrefixOf (c :: rest) then some 0
    else (find_substring rest needle).map (· + 1)

/-- Modelled from the spec: `find_token(element)` — whether the allow-list
contains the element. -/
def find_token (arr : List Nat) (c : Nat) : Bool := arr.contains c

/-- Modelled from the spec: `position(predicate)` — offset of the first element
for which the predicate holds, scanning left to right; none if it never holds. -/
def position (pred : Nat → Bool) : List Nat → Option Nat
  | [] => none
  | c :: rest => if pred c then some 0 else (position pred rest).map (· + 1)

/-- Modelled from the spec: `slice_index(count)` — offset of the `count`-th
element, or none if the input has fewer than `count` elements. -/
def slice_index (i : List Nat) (count : Nat) : Option Nat :=
  if count ≤ i.length then some count else none

/-- Modelled from the spec: `split_at_position` (complete-input rule) — splits at
the first position where the predicate holds; if it never holds, the entire
input is the match and the remaining input is empty, never an error. -/
def split_at_position_complete {E : Type} (pred : Nat → Bool) (i : List Nat) :
    IResult (List Nat) (List Nat) E :=
  match position pred i with
  | some n => Except.ok (take_split i n)
  | none => Except.ok (take_split i (input_len i))

/-- Modelled from the spec: `split_at_position1` (complete-input rule) — as
`split_at_position`, but fails with the given kind when the match would be
empty (zero leading elements before the split, or an empty input). -/
def split_at_position1_complete {E : Type} [ParseError (List Nat) E] (pred : Nat → Bool)
    (e : ErrorKind) (i : List Nat) : IResult (List Nat) (List Nat) E :=
  match position pred i with
  | some 0 => Except.error (Err.Error (ParseError.from_error_kind i e))
  | some n => Except.ok (take_split i n)
  | none =>
    if input_len i = 0 then Except.error (Err.Error (ParseError.from_error_kind i e))
    else Except.ok (take_split i (input_len i))

/-! ### Primitive combinators, translated from src/bytes/complete.rs. -/

/-- Translated from src/bytes/complete.rs `tag`. -/
def tag {E : Type} [ParseError (List Nat) E] (t : List Nat) (i : List Nat) :
    IResult (List Nat) (List Nat) E :=
  let tag_len := input_len t
  match compare i t with
  | CompareResult.Ok => Except.ok (take_split i tag_len)
  | _ => Except.error (Err.Error (ParseError.from_error_kind i ErrorKind.Tag))

/-- Translated from src/bytes/complete.rs `tag_no_case`. -/
def tag_no_case {E : Type} [ParseError (List Nat) E] (t : List Nat) (i : List Nat) :
    IResult (List Nat) (List Nat) E :=
  let tag_len := input_len t
  match compare_no_case i t with
  | CompareResult.Ok => Except.ok (take_split i tag_len)
  | _ => Except.error (Err.Error (ParseError.from_error_kind i ErrorKind.Tag))

/-- Translated from src/bytes/complete.rs `is_not`. -/
def is_not {E : Type} [ParseError (List Nat) E] (arr : List Nat) (i : List Nat) :
    IResult (List Nat) (List Nat) E :=
  split_at_position1_complete (fun c => find_token arr c) ErrorKind.IsNot i

/-- Translated from src/bytes/complete.rs `is_a`. -/
def is_a {E : Type} [ParseError (List Nat) E] (arr : List Nat) (i : List Nat) :
    IResult (List Nat) (List Nat) E :=
  split_at_position1_complete (fun c => !find_token arr c) ErrorKind.IsA i

/-- Translated from src/bytes/complete.rs `take_while`. -/
def take_while {E : Type} [ParseError (List Nat) E] (cond : Nat → Bool) (i : List Nat) :
    IResult (List Nat) (List Nat) E :=
  split_at_position_complete (fun c => !cond c) i

/-- Translated from src/bytes/complete.rs `take_while1`. -/
def take_while1 {E : Type} [ParseError (List Nat) E] (cond : Nat → Bool) (i : List Nat) :
    IResult (List Nat) (List Nat) E :=
  split_at_position1_complete (fun c => !cond c) ErrorKind.TakeWhile1 i

/-- Translated from src/bytes/complete.rs `take_while_m_n`. -/
def take_while_m_n {E : Type} [ParseError (List Nat) E] (m n : Nat) (cond : Nat → Bool)
    (i : List Nat) : IResult (List Nat) (List Nat) E :=
  let input := i
  match position (fun c => !cond c) input with
  | some idx =>
    if idx ≥ m then
      if idx ≤ n then Except.ok (take_split input idx)
      else Except.ok (take_split input n)
    else Except.error (Err.Error (ParseError.from_error_kind input ErrorKind.TakeWhileMN))
  | none =>
    let len := input_len input
    if len ≥ n then Except.ok (take_split input n)
    else
      if len ≥ m ∧ len ≤ n then Except.ok (input.drop len, input)
      else Except.error (Err.Error (ParseError.from_error_kind input ErrorKind.TakeWhileMN))

/-- Translated from src/bytes/complete.rs `take_till`. -/
def take_till {E : Type} [ParseError (List Nat) E] (cond : Nat → Bool) (i : List Nat) :
    IResult (List Nat) (List Nat) E :=
  split_at_position_complete (fun c => cond c) i

/-- Translated from src/bytes/complete.rs `take_till1`. -/
def take_till1 {E : Type} [ParseError (List Nat) E] (cond : Nat → Bool) (i : List Nat) :
    IResult (List Nat) (List Nat) E :=
  split_at_position1_complete (fun c => cond c) ErrorKind.TakeTill1 i

/-- Translated from src/bytes/complete.rs `take`. -/
def take {E : Type} [ParseError (List Nat) E] (count : Nat) (i : List Nat) :
    IResult (List Nat) (List Nat) E :=
  match slice_index i count with
  | none => Except.error (Err.Error (ParseError.from_error_kind i ErrorKind.Eof))
  | some index => Except.ok (take_split i index)

/-- Translated from src/bytes/complete.rs `take_until`. -/
def take_until {E : Type} [ParseError (List Nat) E] (t : List Nat) (i : List Nat) :
    IResult (List Nat) (List Nat) E :=
  match find_substring i t with
  | none => Except.error (Err.Error (ParseError.from_error_kind i ErrorKind.TakeUntil))
  | some index => Except.ok (take_split i index)

/-! ### Helper lemmas. -/

/-- The scan for the first element violating `pred` finds exactly the length of
the maximal satisfying prefix run, or nothing when the whole input satisfies
`pred`. -/
lemma position_eq_run (pred : Nat → Bool) (i : List Nat) :
    position (fun c => !pred c) i = some ((i.takeWhile pred).length) ∨
      (position (fun c => !pred c) i = none ∧ i.takeWhile pred = i) := by
  induction i with
  | nil => exact Or.inr ⟨rfl, rfl⟩
  | cons c rest ih =>
    by_cases h : pred c
    · rcases ih with h1 | ⟨h1, h2⟩
      · left
        simp [position, h, h1]
      · right
        simp [position, h, h1, h2]
    · left
      simp [position, h]

/-- When every element satisfies `pred`, the violating-element scan finds
nothing. -/
lemma position_none_of_all (pred : Nat → Bool) (i : List Nat)
    (h : ∀ c ∈ i, pred c = true) : position (fun c => !pred c) i = none := by
  induction i with
  | nil => rfl
  | cons c rest ih =>
    have hc : pred c = true := h c (by simp)
    simp [position, hc, ih (fun x hx => h x (by simp [hx]))]

/-- The satisfying prefix run is never longer than the input. -/
lemma takeWhile_length_le (pred : Nat → Bool) (i : List Nat) :
    (i.takeWhile pred).length ≤ i.length := by
  induction i with
  | nil => simp
  | cons c rest ih =>
    rw [List.takeWhile_cons]
    by_cases h : pred c
    · simp only [if_pos h, List.length_cons]
      omega
    · simp [if_neg h]

/-- Splitting the input reassembles to the original: the concatenation law for
`take_split`. -/
lemma take_split_concat (i : List Nat) (k : Nat) (rest matched : List Nat)
    (h : take_split i k = (rest, matched)) : matched ++ rest = i := by
  rw [take_split, Prod.mk.injEq] at h
  obtain ⟨h1, h2⟩ := h
  subst h1
  subst h2
  exact List.take_append_drop k i

/-- `split_at_position1_complete` either fails with exactly the given kind at
the whole input — precisely when the input is empty or its first element
satisfies the split predicate — or succeeds. -/
lemma split1_spec {E : Type} [ParseError (List Nat) E] (q : Nat → Bool) (k : ErrorKind)
    (i : List Nat) :
    (split_at_position1_complete (E := E) q k i =
        Except.error (Err.Error (ParseError.from_error_kind i k)) ∧
        (i = [] ∨ ∃ c rest, i = c :: rest ∧ q c = true)) ∨
    ((∃ r, split_at_position1_complete (E := E) q k i = Except.ok r) ∧
        ¬(i = [] ∨ ∃ c rest, i = c :: rest ∧ q c = true)) := by
  cases i with
  | nil => exact Or.inl ⟨rfl, Or.inl rfl⟩
  | cons c rest =>
    by_cases hq : q c
    · exact Or.inl ⟨by simp [split_at_position1_complete, position, hq],
        Or.inr ⟨c, rest, rfl, hq⟩⟩
    · refine Or.inr ⟨?_, ?_⟩
      · rcases hpos : position q rest with _ | n
        · exact ⟨take_split (c :: rest) (input_len (c :: rest)),
            by simp [split_at_position1_complete, position, hq, hpos, input_len]⟩
        · exact ⟨take_split (c :: rest) (n + 1),
            by simp [split_at_position1_complete, position, hq, hpos]⟩
      · rintro (h | ⟨c', rest', heq, hq'⟩)
        · exact List.noConfusion h
        · cases heq
          exact hq hq'

/-- Failure characterisation of `split_at_position1_complete`. -/
lemma split1_fail_iff {E : Type} [ParseError (List Nat) E] (q : Nat → Bool) (k : ErrorKind)
    (i : List Nat) :
    split_at_position1_complete (E := E) q k i =
        Except.error (Err.Error (ParseError.from_error_kind i k)) ↔
      (i = [] ∨ ∃ c rest, i = c :: rest ∧ q c = true) := by
  rcases split1_spec (E := E) q k i with ⟨he, hc⟩ | ⟨⟨r, hr⟩, hc⟩
  · exact ⟨fun _ => hc, fun _ => he⟩
  · constructor
    · intro h
      rw [hr] at h
      exact absurd h (by simp)
    · intro h
      exact absurd h hc

/-- `split_at_position_complete` always succeeds. -/
lemma split0_ok {E : Type} (pred : Nat → Bool) (i : List Nat) :
    ∃ r, split_at_position_complete (E := E) pred i = Except.ok r := by
  rcases h : position pred i with _ | n
  · exact ⟨take_split i (input_len i), by simp [split_at_position_complete, h]⟩
  · exact ⟨take_split i n, by simp [split_at_position_complete, h]⟩

/-- Concatenation law for successful `split_at_position_complete`. -/
lemma split0_ok_concat {E : Type} (pred : Nat → Bool) (i rest matched : List Nat)
    (h : split_at_position_complete (E := E) pred i = Except.ok (rest, matched)) :
    matched ++ rest = i := by
  unfold split_at_position_complete at h
  split at h
  · injection h with h'
    exact take_split_concat _ _ _ _ h'
  · injection h with h'
    exact take_split_concat _ _ _ _ h'

/-- Concatenation law for successful `split_at_position1_complete`. -/
lemma split1_ok_concat {E : Type} [ParseError (List Nat) E] (q : Nat → Bool) (k : ErrorKind)
    (i rest matched : List Nat)
    (h : split_at_position1_complete (E := E) q k i = Except.ok (rest, matched)) :
    matched ++ rest = i := by
  unfold split_at_position1_complete at h
  split at h
  · exact absurd h (by simp)
  · injection h with h'
    exact take_split_concat _ _ _ _ h'
  · split at h
    · exact absurd h (by simp)
    · injection h with h'
      exact take_split_concat _ _ _ _ h'

/-- `tag` either succeeds or fails recoverably with kind `Tag` at the whole input. -/
lemma tag_cases {E : Type} [ParseError (List Nat) E] (t i : List Nat) :
    (∃ r, tag (E := E) t i = Except.ok r) ∨
      tag (E := E) t i = Except.error (Err.Error (ParseError.from_error_kind i ErrorKind.Tag)) := by
  rcases h : compare i t with _ | _ | _
  · exact Or.inl ⟨take_split i (input_len t), by simp [tag, h]⟩
  · exact Or.inr (by simp [tag, h])
  · exact Or.inr (by simp [tag, h])

/-- `tag_no_case` either succeeds or fails recoverably with kind `Tag`. -/
lemma tag_no_case_cases {E : Type} [ParseError (List Nat) E] (t i : List Nat) :
    (∃ r, tag_no_case (E := E) t i = Except.ok r) ∨
      tag_no_case (E := E) t i =
        Except.error (Err.Error (ParseError.from_error_kind i ErrorKind.Tag)) := by
  rcases h : compare_no_case i t with _ | _ | _
  · exact Or.inl ⟨take_split i (input_len t), by simp [tag_no_case, h]⟩
  · exact Or.inr (by simp [tag_no_case, h])
  · exact Or.inr (by simp [tag_no_case, h])

/-- `take_while_m_n` either succeeds or fails recoverably with kind
`TakeWhileMN` at the whole input. -/
lemma twmn_cases {E : Type} [ParseError (List Nat) E] (m n : Nat) (cond : Nat → Bool)
    (i : List Nat) :
    (∃ r, take_while_m_n (E := E) m n cond i = Except.ok r) ∨
      take_while_m_n (E := E) m n cond i =
        Except.error (Err.Error (ParseError.from_error_kind i ErrorKind.TakeWhileMN)) := by
  rcases h : position (fun c => !cond c) i with _ | idx
  · by_cases h1 : n ≤ i.length
    · exact Or.inl ⟨take_split i n, by simp [take_while_m_n, h, input_len, h1]⟩
    · by_cases h2 : m ≤ i.length ∧ i.length ≤ n
      · exact Or.inl ⟨(i.drop i.length, i),
          by simp [take_while_m_n, h, input_len, h1, h2]⟩
      · exact Or.inr (by simp [take_while_m_n, h, input_len, h1, h2])
  · by_cases h1 : m ≤ idx
    · by_cases h2 : idx ≤ n
      · exact Or.inl ⟨take_split i idx, by simp [take_while_m_n, h, h1, h2]⟩
      · exact Or.inl ⟨take_split i n, by simp [take_while_m_n, h, h1, h2]⟩
    · exact Or.inr (by simp [take_while_m_n, h, h1])

/-- `take` either succeeds or fails recoverably with kind `Eof`. -/
lemma take_cases {E : Type} [ParseError (List Nat) E] (c : Nat) (i : List Nat) :
    (∃ r, take (E := E) c i = Except.ok r) ∨
      take (E := E) c i = Except.error (Err.Error (ParseError.from_error_kind i ErrorKind.Eof)) := by
  rcases h : slice_index i c with _ | idx
  · exact Or.inr (by simp [take, h])
  · exact Or.inl ⟨take_split i idx, by simp [take, h]⟩

/-- `take_until` either succeeds or fails recoverably with kind `TakeUntil`. -/
lemma take_until_cases {E : Type} [ParseError (List Nat) E] (t i : List Nat) :
    (∃ r, take_until (E := E) t i = Except.ok r) ∨
      take_until (E := E) t i =
        Except.error (Err.Error (ParseError.from_error_kind i ErrorKind.TakeUntil)) := by
  rcases h : find_substring i t with _ | idx
  · exact Or.inr (by simp [take_until, h])
  · exact Or.inl ⟨take_split i idx, by simp [take_until, h]⟩

/-- Concatenation law for successful `tag`. -/
lemma tag_ok_concat {E : Type} [ParseError (List Nat) E] (t i rest matched : List Nat)
    (h : tag (E := E) t i = Except.ok (rest, matched)) : matched ++ rest = i := by
  unfold tag at h
  split at h
  · injection h with h'
    exact take_split_concat _ _ _ _ h'
  · exact absurd h (by simp)

/-- Concatenation law for successful `tag_no_case`. -/
lemma tag_no_case_ok_concat {E : Type} [ParseError (List Nat) E] (t i rest matched : List Nat)
    (h : tag_no_case (E := E) t i = Except.ok (rest, matched)) : matched ++ rest = i := by
  unfold tag_no_case at h
  split at h
  · injection h with h'
    exact take_split_concat _ _ _ _ h'
  · exact absurd h (by simp)

/-- Concatenation law for successful `take_while_m_n`. -/
lemma twmn_ok_concat {E : Type} [ParseError (List Nat) E] (m n : Nat) (cond : Nat → Bool)
    (i rest matched : List Nat)
    (h : take_while_m_n (E := E) m n cond i = Except.ok (rest, matched)) :
    matched ++ rest = i := by
  unfold take_while_m_n at h
  simp only [input_len] at h
  split at h
  · split at h
    · split at h
      · injection h with h'
        exact take_split_concat _ _ _ _ h'
      · injection h with h'
        exact take_split_concat _ _ _ _ h'
    · exact absurd h (by simp)
  · split at h
    · injection h with h'
      exact take_split_concat _ _ _ _ h'
    · split at h
      · injection h with h'
        rw [Prod.mk.injEq] at h'
        obtain ⟨h1, h2⟩ := h'
        subst h1
        subst h2
        simp [input_len]
      · exact absurd h (by simp)

/-- Concatenation law for successful `take`. -/
lemma take_ok_concat {E : Type} [ParseError (List Nat) E] (c : Nat) (i rest matched : List Nat)
    (h : take (E := E) c i = Except.ok (rest, matched)) : matched ++ rest = i := by
  unfold take at h
  split at h
  · exact absurd h (by simp)
  · injection h with h'
    exact take_split_concat _ _ _ _ h'

/-- Concatenation law for successful `take_until`. -/
lemma take_until_ok_concat {E : Type} [ParseError (List Nat) E] (t i rest matched : List Nat)
    (h : take_until (E := E) t i = Except.ok (rest, matched)) : matched ++ rest = i := by
  unfold take_until at h
  split at h
  · exact absurd h (by simp)
  · injection h with h'
    exact take_split_concat _ _ _ _ h'

/-! ### Claim theorems. -/

/-- Claim C2, counterexample: the claim says the minimal `(input, ErrorKind)`
representation keeps only the newest `(input, kind)` pair, but
`append_error([0], Tag, ([1], Eof))` evaluates to the inner `([1], Eof)`,
not to the newest `([0], Tag)`. -/
theorem append_error_minimal_counterexample :
    append_error (E := List Nat × ErrorKind) [0] ErrorKind.Tag ([1], ErrorKind.Eof) =
        ([1], ErrorKind.Eof) ∧
      (([1], ErrorKind.Eof) : List Nat × ErrorKind) ≠ ([0], ErrorKind.Tag) :=
  ⟨rfl, by decide⟩

/-- Claim C2, amended: `append_error(input, kind, inner)` grows the
`VerboseError` entry list by one `(input, kind)` entry appended at the back
(front-to-back stays innermost-to-outermost), while the minimal
`(input, ErrorKind)` representation discards the newest `(input, kind)` pair
and keeps the inner detail unchanged. -/
theorem append_error_spec {I : Type} (input : I) (kind : ErrorKind)
    (inner : VerboseError I) (p : I × ErrorKind) :
    (append_error input kind inner).errors =
        inner.errors ++ [(input, VerboseErrorKind.Nom kind)] ∧
      append_error (E := I × ErrorKind) input kind p = p :=
  ⟨rfl, rfl⟩

/-- Claim C3: every complete-input primitive either succeeds or fails with
exactly `Err::Error(make_error(current_input, kind))` with its listed kind —
never `Incomplete`, never `Failure`. -/
theorem complete_primitives_failure_form {E : Type} [ParseError (List Nat) E] (i : List Nat) :
    (∀ t : List Nat, (∃ r, tag (E := E) t i = Except.ok r) ∨
        tag (E := E) t i = Except.error (Err.Error (make_error i ErrorKind.Tag))) ∧
    (∀ t : List Nat, (∃ r, tag_no_case (E := E) t i = Except.ok r) ∨
        tag_no_case (E := E) t i = Except.error (Err.Error (make_error i ErrorKind.Tag))) ∧
    (∀ arr : List Nat, (∃ r, is_a (E := E) arr i = Except.ok r) ∨
        is_a (E := E) arr i = Except.error (Err.Error (make_error i ErrorKind.IsA))) ∧
    (∀ arr : List Nat, (∃ r, is_not (E := E) arr i = Except.ok r) ∨
        is_not (E := E) arr i = Except.error (Err.Error (make_error i ErrorKind.IsNot))) ∧
    (∀ cond : Nat → Bool, ∃ r, take_while (E := E) cond i = Except.ok r) ∧
    (∀ cond : Nat → Bool, (∃ r, take_while1 (E := E) cond i = Except.ok r) ∨
        take_while1 (E := E) cond i =
          Except.error (Err.Error (make_error i ErrorKind.TakeWhile1))) ∧
    (∀ (m n : Nat) (cond : Nat → Bool), (∃ r, take_while_m_n (E := E) m n cond i = Except.ok r) ∨
        take_while_m_n (E := E) m n cond i =
          Except.error (Err.Error (make_error i ErrorKind.TakeWhileMN))) ∧
    (∀ cond : Nat → Bool, ∃ r, take_till (E := E) cond i = Except.ok r) ∧
    (∀ cond : Nat → Bool, (∃ r, take_till1 (E := E) cond i = Except.ok r) ∨
        take_till1 (E := E) cond i =
          Except.error (Err.Error (make_error i ErrorKind.TakeTill1))) ∧
    (∀ c : Nat, (∃ r, take (E := E) c i = Except.ok r) ∨
        take (E := E) c i = Except.error (Err.Error (make_error i ErrorKind.Eof))) ∧
    (∀ t : List Nat, (∃ r, take_until (E := E) t i = Except.ok r) ∨
        take_until (E := E) t i = Except.error (Err.Error (make_error i ErrorKind.TakeUntil))) := by
  refine ⟨fun t => tag_cases t i, fun t => tag_no_case_cases t i, fun arr => ?_, fun arr => ?_,
    fun cond => split0_ok _ i, fun cond => ?_, fun m n cond => twmn_cases m n cond i,
    fun cond => split0_ok _ i, fun cond => ?_, fun c => take_cases c i,
    fun t => take_until_cases t i⟩
  · rcases split1_spec (E := E) (fun c => !find_token arr c) ErrorKind.IsA i with ⟨he, _⟩ | ⟨hok, _⟩
    · exact Or.inr he
    · exact Or.inl hok
  · rcases split1_spec (E := E) (fun c => find_token arr c) ErrorKind.IsNot i with
      ⟨he, _⟩ | ⟨hok, _⟩
    · exact Or.inr he
    · exact Or.inl hok
  · rcases split1_spec (E := E) (fun c => !cond c) ErrorKind.TakeWhile1 i with ⟨he, _⟩ | ⟨hok, _⟩
    · exact Or.inr he
    · exact Or.inl hok
  · rcases split1_spec (E := E) (fun c => cond c) ErrorKind.TakeTill1 i with ⟨he, _⟩ | ⟨hok, _⟩
    · exact Or.inr he
    · exact Or.inl hok

/-- Claim C4: `context(label, f)` passes success and `Incomplete` through
unchanged, and converts both `Error(e)` and `Failure(e)` into
`Failure(E::add_context(i, label, e))` with `i` the input at call time. -/
theorem context_spec {I O E : Type} [ParseError I E] (label : String)
    (f : I → IResult I O E) (i : I) :
    (∀ o : I × O, f i = Except.ok o → context label f i = Except.ok o) ∧
    (∀ nd : Needed, f i = Except.error (Err.Incomplete nd) →
      context label f i = Except.error (Err.Incomplete nd)) ∧
    (∀ e : E, f i = Except.error (Err.Error e) →
      context label f i = Except.error (Err.Failure (ParseError.add_context i label e))) ∧
    (∀ e : E, f i = Except.error (Err.Failure e) →
      context label f i = Except.error (Err.Failure (ParseError.add_context i label e))) := by
  refine ⟨?_, ?_, ?_, ?_⟩ <;> intro x h <;> simp [context, h]

/-- Claim C4 witness: a parser failing recoverably at a concrete input comes out
of `context` as an unrecoverable `Failure` carrying the labeled error. -/
theorem context_spec_witness :
    context "digits"
        (fun _ : List Nat =>
          (Except.error (Err.Error (([2], ErrorKind.Tag) : List Nat × ErrorKind)) :
            IResult (List Nat) (List Nat) (List Nat × ErrorKind))) [1] =
      Except.error (Err.Failure ([2], ErrorKind.Tag)) :=
  (context_spec "digits" _ [1]).2.2.1 ([2], ErrorKind.Tag) rfl

/-- Claim C8: `error_to_u32` is non-zero and injective over the closed
`ErrorKind` enumeration, takes the pinned values on the spec's sample variants,
and `description` is a non-empty fixed string for every variant. -/
theorem error_kind_code_spec :
    (∀ k : ErrorKind, error_to_u32 k ≠ 0) ∧
    (∀ k1 k2 : ErrorKind, error_to_u32 k1 = error_to_u32 k2 → k1 = k2) ∧
    error_to_u32 ErrorKind.Tag = 1 ∧
    error_to_u32 ErrorKind.TakeUntil = 12 ∧
    error_to_u32 ErrorKind.Eof = 23 ∧
    error_to_u32 ErrorKind.TakeWhile1 = 47 ∧
    error_to_u32 ErrorKind.TakeTill1 = 67 ∧
    error_to_u32 ErrorKind.TakeWhileMN = 69 ∧
    (∀ k : ErrorKind, (ErrorKind.description k).length ≠ 0) := by
  refine ⟨by decide, by decide, rfl, rfl, rfl, rfl, rfl, rfl, by decide⟩

/-- Claim C8 witness: the injectivity clause applied at a concrete pair of
variants with equal codes. -/
theorem error_kind_code_spec_witness : ErrorKind.Eof = ErrorKind.Eof :=
  error_kind_code_spec.2.1 ErrorKind.Eof ErrorKind.Eof rfl

/-- Claim C10: the default `add_context` of the `ParseError` trait — used by
both the minimal `(input, ErrorKind)` representation and `()` — returns the
inner error unchanged, so `context` discards label and position and only turns
`Error` into `Failure` with the identical payload. -/
theorem add_context_default_spec {I O : Type} (i : I) (label : String) (p : I × ErrorKind)
    (f : I → IResult I O (I × ErrorKind)) (g : I → IResult I O Unit) :
    ParseError.add_context i label p = p ∧
    ParseError.add_context i label () = () ∧
    (∀ e : I × ErrorKind, f i = Except.error (Err.Error e) →
      context label f i = Except.error (Err.Failure e)) ∧
    (∀ e : I × ErrorKind, f i = Except.error (Err.Failure e) →
      context label f i = Except.error (Err.Failure e)) ∧
    (∀ e : Unit, g i = Except.error (Err.Error e) →
      context label g i = Except.error (Err.Failure e)) ∧
    (∀ e : Unit, g i = Except.error (Err.Failure e) →
      context label g i = Except.error (Err.Failure e)) := by
  refine ⟨rfl, rfl, ?_, ?_, ?_, ?_⟩ <;> intro e h <;> simp [context, h] <;> rfl

/-- Claim C10 witness: at a concrete failing parser over the minimal
representation, `context` changes only the variant, keeping the payload. -/
theorem add_context_default_spec_witness :
    context "num"
        (fun _ : List Nat =>
          (Except.error (Err.Error (([5], ErrorKind.Eof) : List Nat × ErrorKind)) :
            IResult (List Nat) (List Nat) (List Nat × ErrorKind))) [9] =
      Except.error (Err.Failure ([5], ErrorKind.Eof)) :=
  (add_context_default_spec [9] "num" ([9], ErrorKind.Eof) _
      (fun _ => Except.ok ([], []))).2.2.1 ([5], ErrorKind.Eof) rfl

/-- Claim C5: the concatenation law — whenever a complete-input primitive
succeeds with `(rest, matched)`, `matched ++ rest` is exactly the original
input, including the `take_while_m_n` branch that returns the whole input as
the match with an empty remainder. -/
theorem concatenation_law {E : Type} [ParseError (List Nat) E] (i : List Nat) :
    (∀ t rest matched : List Nat,
      tag (E := E) t i = Except.ok (rest, matched) → matched ++ rest = i) ∧
    (∀ t rest matched : List Nat,
      tag_no_case (E := E) t i = Except.ok (rest, matched) → matched ++ rest = i) ∧
    (∀ (arr : List Nat) (rest matched : List Nat),
      is_a (E := E) arr i = Except.ok (rest, matched) → matched ++ rest = i) ∧
    (∀ (arr : List Nat) (rest matched : List Nat),
      is_not (E := E) arr i = Except.ok (rest, matched) → matched ++ rest = i) ∧
    (∀ (cond : Nat → Bool) (rest matched : List Nat),
      take_while (E := E) cond i = Except.ok (rest, matched) → matched ++ rest = i) ∧
    (∀ (cond : Nat → Bool) (rest matched : List Nat),
      take_while1 (E := E) cond i = Except.ok (rest, matched) → matched ++ rest = i) ∧
    (∀ (m n : Nat) (cond : Nat → Bool) (rest matched : List Nat),
      take_while_m_n (E := E) m n cond i = Except.ok (rest, matched) → matched ++ rest = i) ∧
    (∀ (cond : Nat → Bool) (rest matched : List Nat),
      take_till (E := E) cond i = Except.ok (rest, matched) → matched ++ rest = i) ∧
    (∀ (cond : Nat → Bool) (rest matched : List Nat),
      take_till1 (E := E) cond i = Except.ok (rest, matched) → matched ++ rest = i) ∧
    (∀ (c : Nat) (rest matched : List Nat),
      take (E := E) c i = Except.ok (rest, matched) → matched ++ rest = i) ∧
    (∀ (t rest matched : List Nat),
      take_until (E := E) t i = Except.ok (rest, matched) → matched ++ rest = i) :=
  ⟨fun t rest matched h => tag_ok_concat t i rest matched h,
   fun t rest matched h => tag_no_case_ok_concat t i rest matched h,
   fun _ rest matched h => split1_ok_concat _ _ i rest matched h,
   fun _ rest matched h => split1_ok_concat _ _ i rest matched h,
   fun _ rest matched h => split0_ok_concat _ i rest matched h,
   fun _ rest matched h => split1_ok_concat _ _ i rest matched h,
   fun m n cond rest matched h => twmn_ok_concat m n cond i rest matched h,
   fun _ rest matched h => split0_ok_concat _ i rest matched h,
   fun _ rest matched h => split1_ok_concat _ _ i rest matched h,
   fun c rest matched h => take_ok_concat c i rest matched h,
   fun t rest matched h => take_until_ok_concat t i rest matched h⟩

/-- Claim C5 witness: the `tag` clause applied at a concrete success. -/
theorem concatenation_law_witness : ([1, 2] : List Nat) ++ [3] = [1, 2, 3] :=
  (concatenation_law (E := List Nat × ErrorKind) [1, 2, 3]).1 [1, 2] [3] [1, 2] rfl

/-- Claim C6: `take_while` and `take_till` never fail, even on empty input,
while `take_while1`, `take_till1`, `is_a` and `is_not` fail — with kinds
`TakeWhile1`, `TakeTill1`, `IsA`, `IsNot` — exactly when the match would have
zero length: the input is empty or its first element does not qualify. -/
theorem zero_length_match_behavior {E : Type} [ParseError (List Nat) E] (pred : Nat → Bool)
    (arr : List Nat) (i : List Nat) :
    (∃ r, take_while (E := E) pred i = Except.ok r) ∧
    (∃ r, take_till (E := E) pred i = Except.ok r) ∧
    (take_while1 (E := E) pred i =
        Except.error (Err.Error (make_error i ErrorKind.TakeWhile1)) ↔
      (i = [] ∨ ∃ c rest, i = c :: rest ∧ pred c = false)) ∧
    (take_till1 (E := E) pred i =
        Except.error (Err.Error (make_error i ErrorKind.TakeTill1)) ↔
      (i = [] ∨ ∃ c rest, i = c :: rest ∧ pred c = true)) ∧
    (is_a (E := E) arr i = Except.error (Err.Error (make_error i ErrorKind.IsA)) ↔
      (i = [] ∨ ∃ c rest, i = c :: rest ∧ find_token arr c = false)) ∧
    (is_not (E := E) arr i = Except.error (Err.Error (make_error i ErrorKind.IsNot)) ↔
      (i = [] ∨ ∃ c rest, i = c :: rest ∧ find_token arr c = true)) := by
  refine ⟨split0_ok _ i, split0_ok _ i, ?_, ?_, ?_, ?_⟩
  · rw [take_while1, make_error, split1_fail_iff]
    simp
  · rw [take_till1, make_error, split1_fail_iff]
  · rw [is_a, make_error, split1_fail_iff]
    simp
  · rw [is_not, make_error, split1_fail_iff]

/-- Claim C6 witness: `take_while1` fails with kind `TakeWhile1` on the empty
input via the right-to-left direction of the characterisation. -/
theorem zero_length_match_behavior_witness :
    take_while1 (E := List Nat × ErrorKind) (fun _ => true) [] =
      Except.error (Err.Error (make_error ([] : List Nat) ErrorKind.TakeWhile1)) :=
  (zero_length_match_behavior (fun _ => true) [] []).2.2.1.mpr (Or.inl rfl)

/-- Claim C7: `tag(lit)` succeeds exactly when the input begins with `lit`, in
which case the match is `lit` itself (so its length is `lit`'s length) and the
remainder is the rest of the input; otherwise — including when the input is a
strict proper prefix of `lit` — it fails recoverably with kind `Tag` at the
start of the input. -/
theorem tag_spec {E : Type} [ParseError (List Nat) E] (t i : List Nat) :
    (t.isPrefixOf i = true →
      tag (E := E) t i = Except.ok (i.drop t.length, t)) ∧
    (t.isPrefixOf i = false →
      tag (E := E) t i = Except.error (Err.Error (make_error i ErrorKind.Tag))) := by
  constructor
  · intro hpre
    have hc : compare i t = CompareResult.Ok := by
      rw [compare, if_pos hpre]
    have ht : i.take t.length = t :=
      (List.prefix_iff_eq_take.mp (List.isPrefixOf_iff_prefix.mp hpre)).symm
    simp [tag, hc, take_split, input_len, ht]
  · intro hpre
    by_cases h2 : i.isPrefixOf t
    · have hc : compare i t = CompareResult.Incomplete := by
        rw [compare, if_neg (by simp [hpre]), if_pos h2]
      simp [tag, hc, make_error]
    · have hc : compare i t = CompareResult.Error := by
        rw [compare, if_neg (by simp [hpre]), if_neg (by simpa using h2)]
      simp [tag, hc, make_error]

/-- Claim C7 witness: `tag([1,2])` on `[1,2,3]` succeeds with match `[1,2]` and
remainder `[3]`; `tag([1,2,3])` fails on its strict proper prefix `[1,2]`. -/
theorem tag_spec_witness :
    tag (E := List Nat × ErrorKind) [1, 2] [1, 2, 3] = Except.ok ([3], [1, 2]) ∧
      tag (E := List Nat × ErrorKind) [1, 2, 3] [1, 2] =
        Except.error (Err.Error (make_error [1, 2] ErrorKind.Tag)) :=
  ⟨(tag_spec [1, 2] [1, 2, 3]).1 (by decide), (tag_spec [1, 2, 3] [1, 2]).2 (by decide)⟩

/-- Claim C1: for `m ≤ n`, `take_while_m_n(m, n, pred)` fails with a
recoverable `TakeWhileMN` error whenever the maximal satisfying prefix run is
shorter than `m` — including when the run is the whole input, i.e. the input
ran out of qualifying elements before reaching `m`; it takes exactly the first
`n` elements when the run is at least `n`; and it consumes the entire input
when `pred` holds everywhere and the input length lies in `[m, n]`. -/
theorem take_while_m_n_bounds {E : Type} [ParseError (List Nat) E] (m n : Nat) (hmn : m ≤ n)
    (pred : Nat → Bool) (i : List Nat) :
    ((i.takeWhile pred).length < m →
      take_while_m_n (E := E) m n pred i =
        Except.error (Err.Error (make_error i ErrorKind.TakeWhileMN))) ∧
    (n ≤ (i.takeWhile pred).length →
      take_while_m_n (E := E) m n pred i = Except.ok (i.drop n, i.take n)) ∧
    ((∀ c ∈ i, pred c = true) → m ≤ i.length → i.length ≤ n →
      take_while_m_n (E := E) m n pred i = Except.ok (([] : List Nat), i)) := by
  refine ⟨?_, ?_, ?_⟩
  · intro hlt
    rcases position_eq_run pred i with hp | ⟨hp, heq⟩
    · have hm : ¬ m ≤ (i.takeWhile pred).length := Nat.not_le.mpr hlt
      simp [take_while_m_n, hp, hm, make_error]
    · have hlen : (i.takeWhile pred).length = i.length := by rw [heq]
      have h1 : ¬ n ≤ i.length := by omega
      have h2 : ¬ (m ≤ i.length ∧ i.length ≤ n) := by omega
      simp [take_while_m_n, hp, input_len, h1, h2, make_error]
  · intro hn
    rcases position_eq_run pred i with hp | ⟨hp, heq⟩
    · have hm : m ≤ (i.takeWhile pred).length := le_trans hmn hn
      by_cases h2 : (i.takeWhile pred).length ≤ n
      · have hrn : (i.takeWhile pred).length = n := le_antisymm h2 hn
        simp [take_while_m_n, hp, hm, h2, hrn, take_split, hmn]
      · simp [take_while_m_n, hp, hm, h2, take_split]
    · have hlen : (i.takeWhile pred).length = i.length := by rw [heq]
      have h1 : n ≤ i.length := by omega
      simp [take_while_m_n, hp, input_len, h1, take_split]
  · intro hall hm hn2
    have hp := position_none_of_all pred i hall
    by_cases h1 : n ≤ i.length
    · have hn' : i.length = n := le_antisymm hn2 h1
      subst hn'
      simp [take_while_m_n, hp, input_len, take_split]
    · have h2 : m ≤ i.length ∧ i.length ≤ n := ⟨hm, hn2⟩
      simp [take_while_m_n, hp, input_len, h1, h2]

/-- Claim C1 witness: `take_while_m_n(4, 5, is_ascii_digit)` on the bytes of
`"123abc"` fails with kind `TakeWhileMN`, the qualifying run (3) being below
the minimum 4. -/
theorem take_while_m_n_bounds_witness :
    take_while_m_n (E := List Nat × ErrorKind) 4 5 (fun c => 48 ≤ c && c ≤ 57)
        [49, 50, 51, 97, 98, 99] =
      Except.error (Err.Error (make_error [49, 50, 51, 97, 98, 99] ErrorKind.TakeWhileMN)) :=
  (take_while_m_n_bounds 4 5 (by decide) (fun c => 48 ≤ c && c ≤ 57)
      [49, 50, 51, 97, 98, 99]).1 (by decide)

/-- Claim C9: `take_while_m_n` never checks `m ≤ n`: with `m > n` it still
succeeds with a match of exactly the first `n` elements — shorter than the
stated minimum `m` — whenever every element satisfies `pred` and the input is
at least `n` long, and likewise whenever the maximal satisfying run reaches
`m`. -/
theorem take_while_m_n_unchecked {E : Type} [ParseError (List Nat) E] (m n : Nat)
    (hmn : n < m) (pred : Nat → Bool) (i : List Nat) :
    ((∀ c ∈ i, pred c = true) → n ≤ i.length →
      take_while_m_n (E := E) m n pred i = Except.ok (i.drop n, i.take n) ∧
        (i.take n).length = n) ∧
    (m ≤ (i.takeWhile pred).length →
      take_while_m_n (E := E) m n pred i = Except.ok (i.drop n, i.take n) ∧
        (i.take n).length = n) := by
  constructor
  · intro hall hn
    have hp := position_none_of_all pred i hall
    refine ⟨by simp [take_while_m_n, hp, input_len, hn, take_split], ?_⟩
    simp only [List.length_take]
    omega
  · intro hm
    have hrun := takeWhile_length_le pred i
    have hn : n ≤ i.length := by omega
    refine ⟨?_, by simp only [List.length_take]; omega⟩
    rcases position_eq_run pred i with hp | ⟨hp, heq⟩
    · have h2 : ¬ (i.takeWhile pred).length ≤ n := by omega
      simp [take_while_m_n, hp, hm, h2, take_split]
    · have hlen : (i.takeWhile pred).length = i.length := by rw [heq]
      have h1 : n ≤ i.length := by omega
      simp [take_while_m_n, hp, input_len, h1, take_split]

/-- Claim C9 witness: `take_while_m_n(3, 1, ⊤)` on a four-element input where
every element qualifies succeeds with a match of length 1, below the stated
minimum 3. -/
theorem take_while_m_n_unchecked_witness :
    take_while_m_n (E := List Nat × ErrorKind) 3 1 (fun _ => true) [7, 7, 7, 7] =
        Except.ok ([7, 7, 7], [7]) ∧
      (([7, 7, 7, 7] : List Nat).take 1).length = 1 :=
  (take_while_m_n_unchecked 3 1 (by decide) (fun _ => true) [7, 7, 7, 7]).1
    (by decide) (by decide)

end Nom
